import Mathlib

/-!
Shallow embedding of the `deno-effect` dinosaur app's data-loading pipeline
(`src/routes/index.tsx` and `src/routes/[dinosaur].tsx`).

Both route handlers run a short-circuiting, typed-error pipeline
(the Effect library's error channel) over the contents of
`data/dinosaurs.json`:

* list endpoint:   read file → parse JSON → validate array shape → render;
* detail endpoint: read file → parse JSON (cast) → case-insensitive lookup → render.

The Effect error channel is embedded as `Except`; the external world
(file system, `JSON.parse`) enters the model as explicit parameters:
a file-read outcome `read : Except String String` and a parse oracle
`parse : String → Except String Json`.  Error causes carried by the
source's error classes (`error: unknown`) are modelled as `String`.
-/

set_option autoImplicit false

namespace DenoEffect

/-- A generic structured value, such as `JSON.parse` produces: `null`,
booleans, numbers, strings, arrays, and objects (a key/value field list).
No claim inspects numeric values, so numbers carry an `Int` payload. -/
inductive Json where
  | null
  | bool (b : Bool)
  | num (n : Int)
  | str (s : String)
  | arr (items : List Json)
  | obj (fields : List (String × Json))

/-- JS `String.prototype.toLowerCase`, modelled as per-character
lowercasing of the string's characters. -/
def jsToLower (s : String) : String :=
  ⟨s.data.map Char.toLower⟩

/-- Field access `item.key` / membership test `'key' in item` on a parsed
object: the first field with the given key (objects produced by
`JSON.parse` have distinct keys). -/
def lookupField (fields : List (String × Json)) (key : String) : Option Json :=
  (fields.find? (fun p => p.1 == key)).map (fun p => p.2)

/-- Modelled from the spec: the `DinoData` interface of `src/types.ts`
(not under `src/`), a record with text fields `name` and `description`;
this is also the shape `validateDinoArray` checks element-wise. -/
structure DinoData where
  name : String
  description : String
  deriving Repr, DecidableEq

/-- `class FileReadError { _tag = "FileReadError"; error: unknown }`
(declared identically in both route files). -/
structure FileReadError where
  error : String
  deriving Repr, DecidableEq

/-- `class ParseError { _tag = "ParseError"; error: unknown }`
(`src/routes/index.tsx`). -/
structure ParseError where
  error : String
  deriving Repr, DecidableEq

/-- `class DataFormatError { _tag = "DataFormatError"; message: string }`
(`src/routes/index.tsx`). -/
structure DataFormatError where
  message : String
  deriving Repr, DecidableEq

/-- `class DinoNotFoundError { _tag = "DinoNotFoundError"; name: string }`
(`src/routes/[dinosaur].tsx`). -/
structure DinoNotFoundError where
  name : String
  deriving Repr, DecidableEq

/-- The error channel of the list endpoint's program:
`FileReadError | ParseError | DataFormatError`. -/
inductive IndexError where
  | fileRead (e : FileReadError)
  | parse (e : ParseError)
  | dataFormat (e : DataFormatError)
  deriving Repr, DecidableEq

/-- The `_tag` discriminator of a list-endpoint error. -/
def IndexError.tag : IndexError → String
  | .fileRead _ => "FileReadError"
  | .parse _ => "ParseError"
  | .dataFormat _ => "DataFormatError"

/-- The error channel of the detail endpoint's program:
`FileReadError | DinoNotFoundError`. -/
inductive DetailError where
  | fileRead (e : FileReadError)
  | dinoNotFound (e : DinoNotFoundError)
  deriving Repr, DecidableEq

/-- The `_tag` discriminator of a detail-endpoint error. -/
def DetailError.tag : DetailError → String
  | .fileRead _ => "FileReadError"
  | .dinoNotFound _ => "DinoNotFoundError"

/-!  ## List endpoint (`src/routes/index.tsx`)  -/

/-- `readDinoFile = Effect.tryPromise { try: Deno.readTextFile(...),
catch: (error) => new FileReadError(error) }`: the file-system outcome
`read` is passed in; any read failure is wrapped in `FileReadError`. -/
def readDinoFile (read : Except String String) : Except IndexError String :=
  match read with
  | .ok content => .ok content
  | .error e => .error (.fileRead ⟨e⟩)

/-- `parseDinoData data = Effect.try { try: JSON.parse(data),
catch: (error) => new ParseError(error) }`: the outcome of the external
`JSON.parse` is given by the oracle `parse`; a parse failure is wrapped
in `ParseError`. -/
def parseDinoData (parse : String → Except String Json) (data : String) :
    Except IndexError Json :=
  match parse data with
  | .ok v => .ok v
  | .error e => .error (.parse ⟨e⟩)

/-- The condition `'key' in item && typeof item[key] === 'string'` on an
object's field list: the key is present and its value is a string. -/
def hasStringField (fields : List (String × Json)) (key : String) : Bool :=
  match lookupField fields key with
  | some (Json.str _) => true
  | _ => false

/-- The element guard `isValidDinoData (item: unknown): item is DinoData`
inside `validateDinoArray`.  In JS, `typeof item === 'object' && item !==
null` holds of objects and arrays only, and `'name' in item && typeof
item.name === 'string'` (likewise `description`) then holds only of an
object carrying a string-valued field of that name — an array has no such
own or inherited property, so only objects can pass. -/
def isValidDinoData : Json → Bool
  | .obj fields => hasStringField fields "name" && hasStringField fields "description"
  | _ => false

/-- `validateDinoArray (data: unknown): Effect<DinoData[], DataFormatError>`:
fail with `"Data is not in expected array format"` unless `Array.isArray(data)`;
fail with `"Some items in array are not valid DinoData"` unless
`data.every(isValidDinoData)`; otherwise succeed with `data` itself. -/
def validateDinoArray (data : Json) : Except DataFormatError (List Json) :=
  match data with
  | .arr items =>
      if items.all isValidDinoData then
        .ok items
      else
        .error ⟨"Some items in array are not valid DinoData"⟩
  | _ => .error ⟨"Data is not in expected array format"⟩

/-- The `Effect.gen` program of the list endpoint's `handler.GET`: read,
then parse, then validate.  The generator's `yield*` chain is the monadic
bind of the error channel, written out as the match chain it denotes:
each stage short-circuits the rest on failure. -/
def listProgram (read : Except String String)
    (parse : String → Except String Json) : Except IndexError (List Json) :=
  match readDinoFile read with
  | .error e => .error e
  | .ok fileContent =>
    match parseDinoData parse fileContent with
    | .error e => .error e
    | .ok parsedData =>
      match validateDinoArray parsedData with
      | .ok dinos => .ok dinos
      | .error e => .error (.dataFormat e)

/-- `program.pipe(Effect.catchAll(... Effect.succeed([])))` then
`ctx.render(result)`: every error in the channel collapses to the empty
array, which is handed to the renderer. -/
def listHandler (read : Except String String)
    (parse : String → Except String Json) : List Json :=
  match listProgram read parse with
  | .ok dinos => dinos
  | .error _ => []

/-- `dino.name` as the `Home` component reads it off a validated element. -/
def dinoName (j : Json) : String :=
  match j with
  | .obj fields =>
      match lookupField fields "name" with
      | some (.str s) => s
      | _ => ""
  | _ => ""

/-!  ## Detail endpoint (`src/routes/[dinosaur].tsx`)  -/

/-- `parseDinos data = Effect.try { try: JSON.parse(data) as DinoData[],
catch: (error) => new FileReadError(error) }`: the parsed value is cast to
`DinoData[]` without validation (the oracle `parse` yields the record
list), and a parse failure is wrapped in `FileReadError`, not a
`ParseError`. -/
def parseDinos (parse : String → Except String (List DinoData)) (data : String) :
    Except DetailError (List DinoData) :=
  match parse data with
  | .ok v => .ok v
  | .error e => .error (.fileRead ⟨e⟩)

/-- `findDino name dinos = Effect.fromNullable(dinos.find(d =>
d.name.toLowerCase() === name.toLowerCase())).pipe(Effect.mapError(() =>
new DinoNotFoundError(name)))`: first case-insensitive match in sequence
order, else `DinoNotFoundError` carrying the requested name. -/
def findDino (name : String) (dinos : List DinoData) :
    Except DinoNotFoundError DinoData :=
  match dinos.find? (fun d => jsToLower d.name == jsToLower name) with
  | some d => .ok d
  | none => .error ⟨name⟩

/-- `readDinoFile` of the detail route (same code as the list route's,
landing in the detail error channel). -/
def readDinoFileD (read : Except String String) : Except DetailError String :=
  match read with
  | .ok content => .ok content
  | .error e => .error (.fileRead ⟨e⟩)

/-- The `Effect.gen` program of the detail endpoint's `handler.GET`: read,
then parse-and-cast, then look up `ctx.params.dinosaur`, as the match
chain denoted by the generator's `yield*` binds. -/
def detailProgram (read : Except String String)
    (parse : String → Except String (List DinoData)) (name : String) :
    Except DetailError DinoData :=
  match readDinoFileD read with
  | .error e => .error e
  | .ok fileData =>
    match parseDinos parse fileData with
    | .error e => .error e
    | .ok dinos =>
      match findDino name dinos with
      | .ok dino => .ok dino
      | .error e => .error (.dinoNotFound e)

/-- `program.pipe(Effect.catchAll(... Effect.succeed(null)))` then
`ctx.render(result)`: every error in the channel collapses to `null`
(here `none`), which is handed to the renderer. -/
def detailHandler (read : Except String String)
    (parse : String → Except String (List DinoData)) (name : String) :
    Option DinoData :=
  match detailProgram read parse name with
  | .ok dino => some dino
  | .error _ => none

/-!  ## Spec-side predicates  -/

/-- The spec's element-shape condition, stated independently of the code:
the value is an object with a string-valued `name` field and a
string-valued `description` field. -/
def SpecValidElement (j : Json) : Prop :=
  ∃ fields nm ds, j = Json.obj fields ∧
    lookupField fields "name" = some (Json.str nm) ∧
    lookupField fields "description" = some (Json.str ds)

/-- The spec's case-insensitive match between a stored record's name and
the requested name. -/
abbrev NameMatches (name : String) (d : DinoData) : Prop :=
  jsToLower d.name = jsToLower name

/-!  ## Helper lemmas  -/

theorem hasStringField_iff (fields : List (String × Json)) (key : String) :
    hasStringField fields key = true ↔ ∃ s, lookupField fields key = some (Json.str s) := by
  unfold hasStringField
  cases h : lookupField fields key with
  | none => simp
  | some v => cases v <;> simp

theorem isValidDinoData_iff (j : Json) :
    isValidDinoData j = true ↔ SpecValidElement j := by
  cases j with
  | obj fields =>
    simp only [isValidDinoData, Bool.and_eq_true, hasStringField_iff, SpecValidElement,
      Json.obj.injEq]
    constructor
    · rintro ⟨⟨nm, hn⟩, ⟨ds, hd⟩⟩
      exact ⟨fields, nm, ds, rfl, hn, hd⟩
    · rintro ⟨fields', nm, ds, rfl, hn, hd⟩
      exact ⟨⟨nm, hn⟩, ⟨ds, hd⟩⟩
  | null => simp [isValidDinoData, SpecValidElement]
  | bool b => simp [isValidDinoData, SpecValidElement]
  | num n => simp [isValidDinoData, SpecValidElement]
  | str s => simp [isValidDinoData, SpecValidElement]
  | arr items => simp [isValidDinoData, SpecValidElement]

theorem validateDinoArray_ok_iff (data : Json) :
    (∃ items, validateDinoArray data = Except.ok items) ↔
      ∃ items, data = Json.arr items ∧ ∀ j ∈ items, SpecValidElement j := by
  cases data with
  | arr items =>
    by_cases hall : items.all isValidDinoData = true
    · constructor
      · intro _
        refine ⟨items, rfl, fun j hj => ?_⟩
        exact (isValidDinoData_iff j).mp (List.all_eq_true.mp hall j hj)
      · intro _
        exact ⟨items, by simp [validateDinoArray, hall]⟩
    · constructor
      · rintro ⟨items', h⟩
        simp [validateDinoArray, hall] at h
      · rintro ⟨items', hi, hv⟩
        cases hi
        exact absurd (List.all_eq_true.mpr fun j hj => (isValidDinoData_iff j).mpr (hv j hj)) hall
  | null => simp [validateDinoArray, SpecValidElement]
  | bool b => simp [validateDinoArray]
  | num n => simp [validateDinoArray]
  | str s => simp [validateDinoArray]
  | obj fields => simp [validateDinoArray]
theorem validateDinoArray_not_array (data : Json)
    (hne : ∀ items, data ≠ Json.arr items) :
    validateDinoArray data = Except.error ⟨"Data is not in expected array format"⟩ := by
  cases data with
  | arr items => exact absurd rfl (hne items)
  | null => rfl
  | bool b => rfl
  | num n => rfl
  | str s => rfl
  | obj fields => rfl

theorem validateDinoArray_bad_element (items : List Json)
    (hbad : ¬ ∀ j ∈ items, SpecValidElement j) :
    validateDinoArray (Json.arr items) =
      Except.error ⟨"Some items in array are not valid DinoData"⟩ := by
  have hall : items.all isValidDinoData ≠ true := fun h =>
    hbad fun j hj => (isValidDinoData_iff j).mp (List.all_eq_true.mp h j hj)
  simp [validateDinoArray, hall]

/-!  ## Claim theorems  -/

/-- C3: the list-endpoint validator succeeds exactly on arrays whose
elements are all objects with string `name` and `description` fields; a
non-array input fails with the not-an-array message, an array with an
ill-shaped element fails with the invalid-element message, and the two
messages are distinct failure branches. -/
theorem validateDinoArray_characterization :
    (∀ data : Json, (∃ items, validateDinoArray data = Except.ok items) ↔
      ∃ items, data = Json.arr items ∧ ∀ j ∈ items, SpecValidElement j) ∧
    (∀ data : Json, (∀ items, data ≠ Json.arr items) →
      validateDinoArray data = Except.error ⟨"Data is not in expected array format"⟩) ∧
    (∀ items : List Json, (¬ ∀ j ∈ items, SpecValidElement j) →
      validateDinoArray (Json.arr items) =
        Except.error ⟨"Some items in array are not valid DinoData"⟩) ∧
    "Data is not in expected array format" ≠ "Some items in array are not valid DinoData" :=
  ⟨validateDinoArray_ok_iff, validateDinoArray_not_array, validateDinoArray_bad_element,
    by decide⟩

/-- Witness for C3: a non-array value and an array with an invalid element
each produce their distinguishing `DataFormatError` message. -/
theorem validateDinoArray_characterization_witness :
    validateDinoArray Json.null = Except.error ⟨"Data is not in expected array format"⟩ ∧
    validateDinoArray (Json.arr [Json.num 1]) =
      Except.error ⟨"Some items in array are not valid DinoData"⟩ :=
  ⟨validateDinoArray_characterization.2.1 Json.null (fun _ h => Json.noConfusion h),
   validateDinoArray_characterization.2.2.1 [Json.num 1] (fun h =>
     by rcases h (Json.num 1) (List.mem_singleton_self _) with ⟨fields, nm, ds, hobj, _, _⟩
        exact Json.noConfusion hobj)⟩

/-- C2: the detail-endpoint lookup scans the record sequence in order,
comparing names case-insensitively.  A success is a matching element that
is earliest in file order (every earlier element fails the comparison,
hence duplicates resolve to the first occurrence); a failure is a
`DinoNotFoundError` carrying the requested name and happens exactly when no
element matches. -/
theorem findDino_spec (name : String) (dinos : List DinoData) :
    (∀ d, findDino name dinos = Except.ok d →
      ∃ i : Fin dinos.length, dinos.get i = d ∧ NameMatches name d ∧
        ∀ j : Fin dinos.length, j.val < i.val → ¬ NameMatches name (dinos.get j)) ∧
    (∀ e, findDino name dinos = Except.error e →
      e = ⟨name⟩ ∧ ∀ d ∈ dinos, ¬ NameMatches name d) ∧
    ((∀ d ∈ dinos, ¬ NameMatches name d) → findDino name dinos = Except.error ⟨name⟩) := by
  refine ⟨?_, ?_, ?_⟩
  · intro d hd
    unfold findDino at hd
    cases hf : dinos.find? (fun d => jsToLower d.name == jsToLower name) with
    | none => rw [hf] at hd; exact Except.noConfusion hd
    | some d0 =>
      rw [hf] at hd
      have hd0 : d0 = d := by cases hd; rfl
      subst hd0
      rw [List.find?_eq_some_iff_getElem] at hf
      obtain ⟨hp, i, hi, hget, hbefore⟩ := hf
      refine ⟨⟨i, hi⟩, hget, of_decide_eq_true hp, ?_⟩
      intro j hj hmatch
      have hb := hbefore j.val hj
      rw [List.get_eq_getElem] at hmatch
      simp [hmatch] at hb
  · intro e he
    unfold findDino at he
    cases hf : dinos.find? (fun d => jsToLower d.name == jsToLower name) with
    | some d0 => rw [hf] at he; exact Except.noConfusion he
    | none =>
      rw [hf] at he
      have he' : e = ⟨name⟩ := by cases he; rfl
      refine ⟨he', fun d hd hmatch => ?_⟩
      have := List.find?_eq_none.mp hf d hd
      exact this (decide_eq_true hmatch)
  · intro hnone
    unfold findDino
    have : dinos.find? (fun d => jsToLower d.name == jsToLower name) = none :=
      List.find?_eq_none.mpr fun d hd hp => hnone d hd (of_decide_eq_true hp)
    rw [this]

/-- Witness for C2: with one stored record named Rex, the request zzz
matches no element and the lookup fails with a `DinoNotFoundError`
carrying zzz. -/
theorem findDino_spec_witness :
    findDino "zzz" [DinoData.mk "Rex" "King"] = Except.error ⟨"zzz"⟩ :=
  (findDino_spec "zzz" [DinoData.mk "Rex" "King"]).2.2 (by decide)

/-- C1: on both endpoints the catch-all boundary makes the handler total
on the pipeline's error channel: every run either succeeds and renders the
pipeline's value, or fails with some error of the channel — at whatever
stage it arose — and renders the safe default (empty list, respectively
null); in both cases a rendering input is produced. -/
theorem handlers_collapse_failures :
    (∀ (read : Except String String) (parse : String → Except String Json),
      (∃ dinos, listProgram read parse = Except.ok dinos ∧
        listHandler read parse = dinos) ∨
      (∃ e, listProgram read parse = Except.error e ∧ listHandler read parse = [])) ∧
    (∀ (read : Except String String) (parse : String → Except String (List DinoData))
        (name : String),
      (∃ d, detailProgram read parse name = Except.ok d ∧
        detailHandler read parse name = some d) ∨
      (∃ e, detailProgram read parse name = Except.error e ∧
        detailHandler read parse name = none)) := by
  constructor
  · intro read parse
    cases h : listProgram read parse with
    | ok dinos => exact Or.inl ⟨dinos, rfl, by simp [listHandler, h]⟩
    | error e => exact Or.inr ⟨e, rfl, by simp [listHandler, h]⟩
  · intro read parse name
    cases h : detailProgram read parse name with
    | ok d => exact Or.inl ⟨d, rfl, by simp [detailHandler, h]⟩
    | error e => exact Or.inr ⟨e, rfl, by simp [detailHandler, h]⟩

/-- C4: for a well-formed input file — the parse yields an array whose
elements all carry string `name` and `description` fields — the list
endpoint renders exactly the file's record sequence: equal as lists, so
of the same length and in the original order. -/
theorem listHandler_wellformed (content : String) (items : List Json)
    (parse : String → Except String Json)
    (hp : parse content = Except.ok (Json.arr items))
    (hv : ∀ j ∈ items, SpecValidElement j) :
    listHandler (Except.ok content) parse = items ∧
    (listHandler (Except.ok content) parse).length = items.length := by
  have hall : items.all isValidDinoData = true :=
    List.all_eq_true.mpr fun j hj => (isValidDinoData_iff j).mpr (hv j hj)
  have hprog : listProgram (Except.ok content) parse = Except.ok items := by
    simp [listProgram, readDinoFile, parseDinoData, hp, validateDinoArray, hall]
  have hh : listHandler (Except.ok content) parse = items := by
    simp [listHandler, hprog]
  exact ⟨hh, by rw [hh]⟩

/-- Witness for C4: a one-record file renders that one record. -/
theorem listHandler_wellformed_witness :
    listHandler (Except.ok "file")
      (fun _ => Except.ok (Json.arr [Json.obj [("name", Json.str "Rex"),
        ("description", Json.str "King")]])) =
      [Json.obj [("name", Json.str "Rex"), ("description", Json.str "King")]] :=
  (listHandler_wellformed "file" _ _ rfl (fun j hj => by
    rw [List.mem_singleton] at hj
    exact ⟨[("name", Json.str "Rex"), ("description", Json.str "King")],
      "Rex", "King", hj, rfl, rfl⟩)).1

/-- C5: if the parsed content is not an array, or is an array with at
least one element lacking a string `name` or a string `description`, the
list endpoint renders the empty list — never a partially filtered subset
of the valid elements. -/
theorem listHandler_invalid_empty (content : String)
    (parse : String → Except String Json) :
    (∀ v, parse content = Except.ok v → (∀ items, v ≠ Json.arr items) →
      listHandler (Except.ok content) parse = []) ∧
    (∀ items, parse content = Except.ok (Json.arr items) →
      (¬ ∀ j ∈ items, SpecValidElement j) →
      listHandler (Except.ok content) parse = []) := by
  constructor
  · intro v hp hne
    have hval := validateDinoArray_not_array v hne
    simp [listHandler, listProgram, readDinoFile, parseDinoData, hp, hval]
  · intro items hp hbad
    have hval := validateDinoArray_bad_element items hbad
    simp [listHandler, listProgram, readDinoFile, parseDinoData, hp, hval]

/-- Witness for C5: a file parsing to the non-array value 5 and a file
parsing to an array containing a bare number both render the empty list. -/
theorem listHandler_invalid_empty_witness :
    listHandler (Except.ok "5") (fun _ => Except.ok (Json.num 5)) = [] ∧
    listHandler (Except.ok "[5]") (fun _ => Except.ok (Json.arr [Json.num 5])) = [] :=
  ⟨(listHandler_invalid_empty "5" _).1 (Json.num 5) rfl (fun _ h => Json.noConfusion h),
   (listHandler_invalid_empty "[5]" _).2 [Json.num 5] rfl (fun h => by
     rcases h (Json.num 5) (List.mem_singleton_self _) with ⟨fields, nm, ds, hobj, _, _⟩
     exact Json.noConfusion hobj)⟩

/-- C6: when the file read fails, the list endpoint renders the empty
list and the detail endpoint renders null; both handlers return a plain
rendering value, so nothing propagates past the handler boundary. -/
theorem handlers_missing_file (e : String) (parseJ : String → Except String Json)
    (parseD : String → Except String (List DinoData)) (name : String) :
    listHandler (Except.error e) parseJ = [] ∧
    detailHandler (Except.error e) parseD name = none :=
  ⟨rfl, rfl⟩

/-- C7: the first failing stage ends each pipeline.  A failed read
determines the whole result for every possible parse oracle — so parsing
and the later stages are never consulted — and a failed parse yields the
parse stage's error with no validation or lookup result produced. -/
theorem pipeline_short_circuit :
    (∀ (e : String) (parse : String → Except String Json),
      listProgram (Except.error e) parse = Except.error (.fileRead ⟨e⟩)) ∧
    (∀ (content : String) (parse : String → Except String Json) (e : String),
      parse content = Except.error e →
      listProgram (Except.ok content) parse = Except.error (.parse ⟨e⟩)) ∧
    (∀ (e : String) (parse : String → Except String (List DinoData)) (name : String),
      detailProgram (Except.error e) parse name = Except.error (.fileRead ⟨e⟩)) ∧
    (∀ (content : String) (parse : String → Except String (List DinoData))
        (e name : String),
      parse content = Except.error e →
      detailProgram (Except.ok content) parse name = Except.error (.fileRead ⟨e⟩)) := by
  refine ⟨fun e parse => rfl, ?_, fun e parse name => rfl, ?_⟩
  · intro content parse e hp
    simp [listProgram, readDinoFile, parseDinoData, hp]
  · intro content parse e name hp
    simp [detailProgram, readDinoFileD, parseDinos, hp]

/-- Witness for C7: a failing parse ends both pipelines with the parse
stage's wrapped error. -/
theorem pipeline_short_circuit_witness :
    listProgram (Except.ok "oops") (fun _ => Except.error "bad json") =
      Except.error (.parse ⟨"bad json"⟩) ∧
    detailProgram (Except.ok "oops") (fun _ => Except.error "bad json") "rex" =
      Except.error (.fileRead ⟨"bad json"⟩) :=
  ⟨pipeline_short_circuit.2.1 "oops" _ "bad json" rfl,
   pipeline_short_circuit.2.2.2 "oops" _ "bad json" "rex" rfl⟩

/-- C8: each handler is a pure function of the file-read outcome, the
parse oracle and the requested name — the embedding has no other state —
so two runs of the same request against identical file contents return
identical output. -/
theorem handlers_deterministic (read read' : Except String String)
    (parseJ parseJ' : String → Except String Json)
    (parseD parseD' : String → Except String (List DinoData))
    (name name' : String)
    (hr : read = read') (hpj : parseJ = parseJ') (hpd : parseD = parseD')
    (hn : name = name') :
    listHandler read parseJ = listHandler read' parseJ' ∧
    detailHandler read parseD name = detailHandler read' parseD' name' := by
  subst hr; subst hpj; subst hpd; subst hn
  exact ⟨rfl, rfl⟩

/-- Witness for C8: a concrete repeated request gives identical output. -/
theorem handlers_deterministic_witness :
    listHandler (Except.error "gone") (fun _ => Except.error "x") =
      listHandler (Except.error "gone") (fun _ => Except.error "x") ∧
    detailHandler (Except.error "gone") (fun _ => Except.error "x") "rex" =
      detailHandler (Except.error "gone") (fun _ => Except.error "x") "rex" :=
  handlers_deterministic _ _ _ _ _ _ _ _ rfl rfl rfl rfl

/-- C9: on the detail endpoint a parse failure is wrapped in
`FileReadError`, the same constructor a read failure produces, so the two
failure kinds carry the same tag `FileReadError` and are indistinguishable
by error kind. -/
theorem detail_parse_failure_tag :
    (∀ (parse : String → Except String (List DinoData)) (content e name : String),
      parse content = Except.error e →
      detailProgram (Except.ok content) parse name = Except.error (.fileRead ⟨e⟩)) ∧
    (∀ (e : String) (parse : String → Except String (List DinoData)) (name : String),
      detailProgram (Except.error e) parse name = Except.error (.fileRead ⟨e⟩)) ∧
    (∀ e : FileReadError, (DetailError.fileRead e).tag = "FileReadError") ∧
    (∀ e e' : FileReadError,
      (DetailError.fileRead e).tag = (DetailError.fileRead e').tag) := by
  refine ⟨?_, fun e parse name => rfl, fun e => rfl, fun e e' => rfl⟩
  intro parse content e name hp
  simp [detailProgram, readDinoFileD, parseDinos, hp]

/-- Witness for C9: malformed JSON on the detail endpoint fails with the
`FileReadError` constructor, not a parse-specific one. -/
theorem detail_parse_failure_tag_witness :
    detailProgram (Except.ok "not json") (fun _ => Except.error "SyntaxError") "rex" =
      Except.error (.fileRead ⟨"SyntaxError"⟩) :=
  detail_parse_failure_tag.1 _ "not json" "SyntaxError" "rex" rfl

/-- C10: a file parsing to the empty JSON array passes validation
vacuously, the pipeline succeeds with the empty list, and the rendered
output coincides with the safe-default fallback a failing run produces. -/
theorem list_empty_array (content : String) (parse : String → Except String Json)
    (hp : parse content = Except.ok (Json.arr [])) :
    validateDinoArray (Json.arr []) = Except.ok [] ∧
    listProgram (Except.ok content) parse = Except.ok [] ∧
    listHandler (Except.ok content) parse = [] ∧
    listHandler (Except.ok content) parse = listHandler (Except.error "missing") parse := by
  have hprog : listProgram (Except.ok content) parse = Except.ok ([] : List Json) := by
    simp [listProgram, readDinoFile, parseDinoData, hp, validateDinoArray]
  have hh : listHandler (Except.ok content) parse = [] := by simp [listHandler, hprog]
  exact ⟨rfl, hprog, hh, hh.trans rfl⟩

/-- Witness for C10: the empty-array file renders the empty list. -/
theorem list_empty_array_witness :
    listHandler (Except.ok "[]") (fun _ => Except.ok (Json.arr [])) = [] :=
  (list_empty_array "[]" _ rfl).2.2.1
end DenoEffect
